import Mathlib

/-!
Verification of the feed-analysis pipeline of the iOS Blogs Analyzer.

The development shallowly embeds the TypeScript sources:

* `src/utils.ts` — the bounded worker pool `asyncPool` (validation and
  early-return logic as the functional model `asyncPoolResult`, and the
  concurrent runner loop as the small-step machine in namespace `Pool`);
* `src/analyzer.ts` — `analyzeFeeds`, `normalizeMonths`, `subtractMonths`,
  `analyzeFeedItems`, `shouldAnalyzeItem` and the progress counter;
* `src/ollama-client.ts` — the error-classification logic of
  `OllamaClient.analyze` under the graceful-degradation flag
  (`isGracefulFailure`, `createFallbackAnalysis`).

Modelling conventions: JavaScript numbers that only ever hold finite values
are embedded as `ℚ` (so the `Number.isInteger` checks become `q.den = 1`);
fallible calls return `Except JsError`; the injected clock is modelled as
returning a fixed value (the repository's tests use constant clocks); the
composite `new Date(ms)`/`subtractMonths(·, months).valueOf()` conversion used
to build the cutoff timestamp is treated as an opaque primitive parameter
`cutoffOf`, while `subtractMonths` itself is modelled separately on civil
dates where its calendar content lives; millisecond time values are `ℤ`
(`Date` time values are integral).
-/

set_option maxRecDepth 8000

namespace BlogAnalyzer

/-- A JavaScript `Error` value, reduced to the only observable the pipeline
uses: its message. -/
structure JsError where
  message : String
deriving Repr, DecidableEq

/-- The `reason` carried by an `AbortSignal`: an `Error`, a string, or
`undefined`. -/
inductive AbortReason where
  | err (e : JsError)
  | str (s : String)
  | undef
deriving Repr, DecidableEq

/-- An `AbortSignal` as observed by `asyncPool`: whether it is aborted and
its reason. -/
structure Signal where
  aborted : Bool
  reason : AbortReason
deriving Repr, DecidableEq

/-- The error produced by `throwIfAborted` in `src/utils.ts` (lines 47-71):
an `Error` reason is rethrown as is, a string becomes an `Error` with that
message, anything else becomes the default abort error. -/
def toAbortError : AbortReason → JsError
  | .err e => e
  | .str s => ⟨s⟩
  | .undef => ⟨"The operation was aborted"⟩

/-- `throwIfAborted(signal)`: `none` when the call returns normally, `some e`
when it throws `e` (signal present and aborted). -/
def signalThrows : Option Signal → Option JsError
  | none => none
  | some s => if s.aborted then some (toAbortError s.reason) else none

/-- `Math.max` on two JavaScript numbers (time values are integral). -/
def mathMax (a b : ℤ) : ℤ :=
  if a ≤ b then b else a

/-- `Number.isInteger` on the `ℚ` embedding of a finite JavaScript number. -/
def isIntegral (q : ℚ) : Prop :=
  q.den = 1

instance (q : ℚ) : Decidable (isIntegral q) := by
  unfold isIntegral
  infer_instance

/-- Functional model of `asyncPool` from `src/utils.ts` (lines 6-45): the
argument validation, the empty-input early return and the initial abort check
in source order, followed by the runner loop.  The runner loop is summarised
by its input-ordered result (`results[i] = worker(items[i])`), which the
small-step machine in namespace `Pool` justifies; a worker that never throws
is modelled as a total function. -/
def asyncPoolResult {α β : Type} (items : List α) (worker : α → β)
    (concurrency : ℚ) (signal : Option Signal) : Except JsError (List β) :=
  if ¬ (isIntegral concurrency ∧ 0 < concurrency) then
    .error ⟨"concurrency must be a positive integer"⟩
  else if items.length = 0 then
    .ok []
  else
    match signalThrows signal with
    | some e => .error e
    | none => .ok (items.map worker)

/-! ### Calendar model for `subtractMonths` (`src/analyzer.ts` lines 149-154)

`subtractMonths` copies the date and calls `result.setMonth(result.getMonth()
- safeMonths)` with `safeMonths = Math.max(0, months)`.  ECMAScript `setMonth`
computes `MakeDay(year, newMonth, dayOfMonth)`: the month count is normalised
with floor division into a year and a month index `0..11`, and the (possibly
overflowing) day of month is resolved by counting `dayOfMonth - 1` exact days
forward from the first of that month.  The civil calendar is embedded below
with 0-based month indices matching `getMonth`. -/

/-- Gregorian leap-year rule (what `Date` uses for February lengths). -/
def isLeapYear (y : ℤ) : Bool :=
  (y % 4 == 0 && y % 100 != 0) || y % 400 == 0

/-- A civil date as `Date` exposes it: `getFullYear`, `getMonth` (0-11),
`getDate` (1-based). -/
structure CivilDate where
  year : ℤ
  month : ℕ
  day : ℕ
deriving Repr, DecidableEq

/-- Number of days in a month (0-based month index). -/
def daysInMonth (y : ℤ) (m : ℕ) : ℕ :=
  match m with
  | 0 => 31
  | 1 => if isLeapYear y then 29 else 28
  | 2 => 31
  | 3 => 30
  | 4 => 31
  | 5 => 30
  | 6 => 31
  | 7 => 31
  | 8 => 30
  | 9 => 31
  | 10 => 30
  | _ => 31

/-- A date is valid when the month index is in range and the day exists in
that month.  `Date` never produces an out-of-range civil triple from
`setMonth` (it normalises instead); validity of the model output is the
formal counterpart. -/
def CivilDate.isValid (d : CivilDate) : Prop :=
  d.month < 12 ∧ 1 ≤ d.day ∧ d.day ≤ daysInMonth d.year d.month

instance (d : CivilDate) : Decidable d.isValid := by
  unfold CivilDate.isValid
  infer_instance

/-- The day after a given date. -/
def nextDay (dt : CivilDate) : CivilDate :=
  if dt.day < daysInMonth dt.year dt.month then ⟨dt.year, dt.month, dt.day + 1⟩
  else if dt.month < 11 then ⟨dt.year, dt.month + 1, 1⟩
  else ⟨dt.year + 1, 0, 1⟩

/-- Adding `n` exact days to a date. -/
def addDays (dt : CivilDate) : ℕ → CivilDate
  | 0 => dt
  | n + 1 => addDays (nextDay dt) n

/-- `subtractMonths` from `src/analyzer.ts` lines 149-154 under ECMAScript
`setMonth` semantics: normalise the month count with floor division (for the
positive divisor 12, Euclidean `ediv`/`emod` coincide with floor
division/modulo), then resolve the kept day-of-month by day-overflow from the
first of the target month. -/
def subtractMonths (dt : CivilDate) (months : ℤ) : CivilDate :=
  let safeMonths := max 0 months
  let total : ℤ := dt.year * 12 + (dt.month : ℤ) - safeMonths
  addDays ⟨total / 12, (total % 12).toNat, 1⟩ (dt.day - 1)

/-! ### Classification client (`src/ollama-client.ts`)

`OllamaClient.analyze` (lines 139-193) runs the generation request (with
retries) inside a `try`; in the `catch`, when the caller passed
`gracefulDegradation: true` and `isGracefulFailure` accepts the error, it
returns `createFallbackAnalysis(error)` instead of rethrowing.  The outcome
of the `try` body is modelled as an `Except` value. -/

/-- An Ollama relevance verdict (`AnalysisResult` in
`src/ollama-client.ts`). -/
structure AnalysisResult where
  relevant : Bool
  confidence : Option ℚ
  reason : Option String
  tags : Option (List String)
  rawResponse : String
deriving Repr, DecidableEq

/-- The typed errors thrown inside `OllamaClient.analyze`, reduced to the
fields inspected by `isGracefulFailure` and `createFallbackAnalysis`. -/
inductive OllamaError where
  | configurationError (message : String)
  | requestError (message : String) (status : ℤ)
  | parseError (message : String)
  | timeoutError (message : String)
  | unavailableError (message : String) (attempts : ℕ)
deriving Repr, DecidableEq

/-- `error.message` for each error class. -/
def OllamaError.message : OllamaError → String
  | .configurationError m => m
  | .requestError m _ => m
  | .parseError m => m
  | .timeoutError m => m
  | .unavailableError m _ => m

/-- `OllamaClient.isGracefulFailure` (lines 638-648): unavailable and timeout
errors always, request errors only with status `>= 500` or `429`, nothing
else. -/
def isGracefulFailure : OllamaError → Bool
  | .unavailableError _ _ => true
  | .timeoutError _ => true
  | .requestError _ status => 500 ≤ status || status == 429
  | _ => false

/-- `OllamaClient.createFallbackAnalysis` (lines 650-659). -/
def createFallbackAnalysis (e : OllamaError) : AnalysisResult :=
  { relevant := false
    confidence := some 0
    reason := some e.message
    tags := none
    rawResponse := "" }

/-- The `try`/`catch` of `OllamaClient.analyze` (lines 152-192), applied to
the outcome of the try body (request with retries, JSON decoding and
`parseDecision`). -/
def analyzeCatch (gracefulDegradation : Bool)
    (outcome : Except OllamaError AnalysisResult) :
    Except OllamaError AnalysisResult :=
  match outcome with
  | .ok r => .ok r
  | .error e =>
      if gracefulDegradation && isGracefulFailure e then
        .ok (createFallbackAnalysis e)
      else
        .error e

/-! ### Feed analysis orchestrator (`src/analyzer.ts`)

`analyzeFeeds` validates its options, resolves the dependency overrides over
`defaultDependencies`, and runs one worker per input URL through `asyncPool`.
The model below mirrors that code with two bookkeeping additions: a `RunLog`
recording every fetch and classification call actually made (with the exact
options objects the code passes), and the results listed in input order (the
pool contract, proved by the machine in namespace `Pool`).  An item's
`publishedAt` is embedded as the outcome of `new Date(string)`: absent or
falsy (`none`), present but unparseable (`some none` — `NaN` time value), or
parsed to an integral millisecond timestamp (`some (some t)`). -/

/-- A normalised feed item (`FeedItem` in `src/types.ts`), with
`publishedAt` pre-parsed as described above. -/
structure FeedItem where
  title : String
  link : String
  description : Option String
  publishedAt : Option (Option ℤ)
deriving Repr, DecidableEq

/-- A parsed feed (`ParsedFeed` in `src/types.ts`). -/
structure ParsedFeed where
  title : Option String
  description : Option String
  items : List FeedItem
deriving Repr, DecidableEq

/-- A retained relevant post (`RelevantPost` in `src/analyzer.ts`). -/
structure RelevantPost where
  title : String
  link : String
  publishedAt : Option (Option ℤ)
  analysis : AnalysisResult
deriving Repr, DecidableEq

/-- `FeedAnalysisResult.status`. -/
inductive FeedStatus where
  | fulfilled
  | rejected
deriving Repr, DecidableEq

/-- A per-feed result (`FeedAnalysisResult` in `src/analyzer.ts`); optional
fields that the code may leave unassigned are `Option`s. -/
structure FeedAnalysisResult where
  feedUrl : String
  status : FeedStatus
  feed : Option ParsedFeed
  error : Option JsError
  durationMs : Option ℤ
  analyzedItems : Option ℕ
  relevantPosts : Option (List RelevantPost)
deriving Repr, DecidableEq

/-- The options object the worker passes to `analysisClient.analyze`
(`src/analyzer.ts` line 174 passes a literal with `gracefulDegradation:
true` and no `signal` property, though the client's `AnalyzeTextOptions`
accepts one). -/
structure ClassifyOptions where
  gracefulDegradation : Bool
  signal : Option Signal
deriving Repr, DecidableEq

/-- `FetchFeedOptions` from `src/types.ts`: `timeoutMs` and `userAgent`
(the optional `fetcher` is the network primitive itself and is part of the
fetch dependency here).  The interface has no `signal` field. -/
structure FetchFeedOptions where
  timeoutMs : Option ℤ
  userAgent : Option String
deriving Repr, DecidableEq

/-- Instrumentation: every fetch and classification call a run makes,
with the options objects actually passed. -/
structure RunLog where
  fetches : List (String × FetchFeedOptions)
  classifications : List (String × ClassifyOptions)
deriving Repr, DecidableEq

/-- `shouldAnalyzeItem` (`src/analyzer.ts` lines 189-202): no publish date
or an unparseable one fails the check; otherwise the item passes iff its
date is at or after the cutoff. -/
def shouldAnalyzeItem (item : FeedItem) (cutoffDate : ℤ) : Bool :=
  match item.publishedAt with
  | none => false
  | some none => false
  | some (some t) => cutoffDate ≤ t

/-- `analyzeFeedItems` (`src/analyzer.ts` lines 156-187): walk the items in
feed order, skip those failing `shouldAnalyzeItem` or with a falsy
description, classify the rest with `gracefulDegradation: true` (and no
signal), count classified items and collect the relevant posts.  A thrown
classification error aborts the walk (the log of calls made so far is
kept). -/
def analyzeFeedItems
    (classify : String → ClassifyOptions → Except JsError AnalysisResult)
    (cutoffDate : ℤ) :
    List FeedItem → ℕ → List RelevantPost → List (String × ClassifyOptions) →
      List (String × ClassifyOptions) × Except JsError (ℕ × List RelevantPost)
  | [], analyzedCount, relevantPosts, log => (log, .ok (analyzedCount, relevantPosts))
  | item :: rest, analyzedCount, relevantPosts, log =>
    if shouldAnalyzeItem item cutoffDate then
      match item.description with
      | none => analyzeFeedItems classify cutoffDate rest analyzedCount relevantPosts log
      | some d =>
        if d = "" then
          analyzeFeedItems classify cutoffDate rest analyzedCount relevantPosts log
        else
          match classify d ⟨true, none⟩ with
          | .error e => (log ++ [(d, ⟨true, none⟩)], .error e)
          | .ok analysis =>
            analyzeFeedItems classify cutoffDate rest (analyzedCount + 1)
              (if analysis.relevant then
                relevantPosts ++ [⟨item.title, item.link, item.publishedAt, analysis⟩]
              else relevantPosts)
              (log ++ [(d, ⟨true, none⟩)])
    else
      analyzeFeedItems classify cutoffDate rest analyzedCount relevantPosts log

/-- The merged dependencies the worker closes over. -/
structure ResolvedDeps where
  fetchFeed : String → FetchFeedOptions → Except JsError ParsedFeed
  analysisClient : String → ClassifyOptions → Except JsError AnalysisResult

/-- The per-feed unit of work (`src/analyzer.ts` lines 89-129).  `cutoffOf`
is the opaque composite `subtractMonths(new Date(ms), months).valueOf()`
producing the comparable cutoff; the constant injected clock yields equal
start/finish timestamps, so `durationMs` is `max 0 (clock - clock)`.  Note
that `result.feed` is assigned as soon as the fetch succeeds, before item
analysis can still fail. -/
def runFeedWorker (deps : ResolvedDeps) (cutoffOf : ℤ → ℤ → ℤ) (clockVal : ℤ)
    (months : ℤ) (fetchOptions : FetchFeedOptions) (feedUrl : String) :
    FeedAnalysisResult × RunLog :=
  let durationMs : Option ℤ := some (mathMax 0 (clockVal - clockVal))
  match deps.fetchFeed feedUrl fetchOptions with
  | .error e =>
      ({ feedUrl := feedUrl, status := .rejected, feed := none, error := some e,
         durationMs := durationMs, analyzedItems := none, relevantPosts := none },
       ⟨[(feedUrl, fetchOptions)], []⟩)
  | .ok feed =>
      if feed.items.isEmpty then
        ({ feedUrl := feedUrl, status := .fulfilled, feed := some feed, error := none,
           durationMs := durationMs, analyzedItems := none, relevantPosts := none },
         ⟨[(feedUrl, fetchOptions)], []⟩)
      else
        match analyzeFeedItems deps.analysisClient (cutoffOf clockVal months)
            feed.items 0 [] [] with
        | (log, .error e) =>
            ({ feedUrl := feedUrl, status := .rejected, feed := some feed, error := some e,
               durationMs := durationMs, analyzedItems := none, relevantPosts := none },
             ⟨[(feedUrl, fetchOptions)], log⟩)
        | (log, .ok (analyzedCount, relevantPosts)) =>
            ({ feedUrl := feedUrl, status := .fulfilled, feed := some feed, error := none,
               durationMs := durationMs, analyzedItems := some analyzedCount,
               relevantPosts :=
                 if relevantPosts.length > 0 then some relevantPosts else none },
             ⟨[(feedUrl, fetchOptions)], log⟩)

/-- `defaultDependencies.analysisClient` (`src/analyzer.ts` lines 45-52):
throws on every call. -/
def defaultAnalysisClient : String → ClassifyOptions → Except JsError AnalysisResult :=
  fun _ _ => .error ⟨"analysisClient dependency is required"⟩

/-- The caller's `options.dependencies` partial override. -/
structure DepsOverride where
  fetchFeed : Option (String → FetchFeedOptions → Except JsError ParsedFeed)
  analysisClient : Option (String → ClassifyOptions → Except JsError AnalysisResult)

/-- `AnalyzeFeedsOptions` (`src/analyzer.ts` lines 54-62), without the two
callbacks (progress is modelled by `emitProgress`, verbose output does not
exist in this version of the file) and with the clock modelled as a fixed
value. -/
structure AnalyzeFeedsOptions where
  parallel : Option ℚ
  signal : Option Signal
  fetchOptions : Option FetchFeedOptions
  dependencies : DepsOverride
  months : Option ℚ

/-- The dependency merge `{ ...defaultDependencies, ...options.dependencies }`
(`src/analyzer.ts` lines 75-78): each override, when present, replaces the
default (`fetchFeed` from `src/rss-parser.ts`, modelled as the
`defaultFetchFeed` parameter, and the throwing `defaultAnalysisClient`). -/
def resolvedDeps
    (defaultFetchFeed : String → FetchFeedOptions → Except JsError ParsedFeed)
    (options : AnalyzeFeedsOptions) : ResolvedDeps :=
  ⟨options.dependencies.fetchFeed.getD defaultFetchFeed,
    options.dependencies.analysisClient.getD defaultAnalysisClient⟩

/-- `normalizeMonths` (`src/analyzer.ts` lines 137-147). -/
def normalizeMonths : Option ℚ → Except JsError ℤ
  | none => .ok 3
  | some v =>
    if isIntegral v ∧ 0 < v then .ok v.num
    else .error ⟨"months must be a positive integer"⟩

/-- The empty instrumentation log. -/
def emptyLog : RunLog :=
  ⟨[], []⟩

/-- `analyzeFeeds` (`src/analyzer.ts` lines 64-135): validate `parallel`,
merge the dependency overrides over the defaults, validate `months`, then
run the workers through `asyncPool` (whose re-validation of the same
concurrency value passes, whose empty-input early return precedes its abort
check, and whose input-ordered result the `Pool` machine justifies). -/
def analyzeFeeds
    (defaultFetchFeed : String → FetchFeedOptions → Except JsError ParsedFeed)
    (cutoffOf : ℤ → ℤ → ℤ) (clockVal : ℤ) (feedUrls : List String)
    (options : AnalyzeFeedsOptions) :
    Except JsError (List FeedAnalysisResult) × RunLog :=
  let parallel := options.parallel.getD 3
  if ¬ (isIntegral parallel ∧ 0 < parallel) then
    (.error ⟨"parallel must be a positive integer"⟩, emptyLog)
  else
    let deps := resolvedDeps defaultFetchFeed options
    match normalizeMonths options.months with
    | .error e => (.error e, emptyLog)
    | .ok months =>
      if feedUrls.length = 0 then
        (.ok [], emptyLog)
      else
        match signalThrows options.signal with
        | some e => (.error e, emptyLog)
        | none =>
          let runs := feedUrls.map
            (runFeedWorker deps cutoffOf clockVal months (options.fetchOptions.getD ⟨none, none⟩))
          (.ok (runs.map Prod.fst),
            ⟨(runs.map fun r => r.2.fetches).flatten,
              (runs.map fun r => r.2.classifications).flatten⟩)

/-- A progress event (`ProgressUpdate` in `src/analyzer.ts`). -/
structure ProgressUpdate where
  feedUrl : String
  completed : ℕ
  total : ℕ
  status : FeedStatus
  feed : Option ParsedFeed
  error : Option JsError
  durationMs : Option ℤ
deriving Repr, DecidableEq

/-- The progress emission of `src/analyzer.ts` lines 118-127: each worker,
at its own completion (the argument list is the per-feed results in
completion order), synchronously increments the shared `completed` counter
and invokes `onProgress` with the new value — there is no suspension point
between the increment and the read. -/
def emitProgress (total : ℕ) :
    List FeedAnalysisResult → ℕ → List ProgressUpdate
  | [], _ => []
  | r :: rest, completed =>
      ⟨r.feedUrl, completed + 1, total, r.status, r.feed, r.error, r.durationMs⟩ ::
        emitProgress total rest (completed + 1)

end BlogAnalyzer

namespace BlogAnalyzer

/-! ### Small-step machine for the `asyncPool` runner loop

`asyncPool` (lines 24-44 of `src/utils.ts`) spawns `min(concurrency, total)`
runner loops over a shared `nextIndex` cursor and a pre-allocated `results`
array.  JavaScript's single-threaded execution makes each segment between
`await`s atomic; the only suspension point in a runner is `await worker(...)`.
A runner therefore has three atomic moves:

* *claim*: read `nextIndex` (still `< total`), advance it, and start the
  worker on the claimed index (lines 31-37 up to the `await`);
* *exhaust*: read `nextIndex`, find it `>= total`, and return (lines 31-34);
* *complete*: the awaited worker settles and its value is stored at the
  claimed index (line 37), after which the runner loops.

The machine interleaves these moves nondeterministically across runners,
covering every completion order.  `invocations` instruments how many times
the worker has been started on each index.  Runs with no abort signal are
modelled (`throwIfAborted` without a signal returns immediately). -/

/-- The state of one runner loop. -/
inductive RunnerState where
  | idle
  | running (idx : ℕ)
  | done
deriving Repr, DecidableEq

/-- Whether a runner currently has a worker in flight. -/
def RunnerState.isRunning : RunnerState → Bool
  | .running _ => true
  | _ => false

/-- The shared state of one `asyncPool` call. -/
structure PoolState (β : Type) where
  nextIndex : ℕ
  runners : List RunnerState
  results : List (Option β)
  invocations : List ℕ

/-- The state right after `asyncPool` allocates `results` and spawns
`min(concurrency, total)` runners. -/
def PoolState.init (β : Type) (concurrency total : ℕ) : PoolState β :=
  ⟨0, List.replicate (min concurrency total) .idle,
    List.replicate total none, List.replicate total 0⟩

/-- Number of workers currently in flight. -/
def PoolState.activeCount {β : Type} (s : PoolState β) : ℕ :=
  s.runners.countP fun r => r.isRunning

/-- One atomic move of one runner (see the section comment). -/
inductive PoolStep {α β : Type} (items : List α) (worker : α → β) :
    PoolState β → PoolState β → Prop where
  | claim (s : PoolState β) (j : ℕ)
      (hj : s.runners[j]? = some .idle)
      (hlt : s.nextIndex < items.length) :
      PoolStep items worker s
        ⟨s.nextIndex + 1, s.runners.set j (.running s.nextIndex), s.results,
          s.invocations.set s.nextIndex (s.invocations.getD s.nextIndex 0 + 1)⟩
  | exhaust (s : PoolState β) (j : ℕ)
      (hj : s.runners[j]? = some .idle)
      (hge : items.length ≤ s.nextIndex) :
      PoolStep items worker s
        ⟨s.nextIndex, s.runners.set j .done, s.results, s.invocations⟩
  | complete (s : PoolState β) (j i : ℕ) (a : α)
      (hj : s.runners[j]? = some (.running i))
      (ha : items[i]? = some a) :
      PoolStep items worker s
        ⟨s.nextIndex, s.runners.set j .idle,
          s.results.set i (some (worker a)), s.invocations⟩

/-- Reachability from the initial pool state. -/
def PoolReachable {α β : Type} (items : List α) (worker : α → β)
    (concurrency : ℕ) (s : PoolState β) : Prop :=
  Relation.ReflTransGen (PoolStep items worker)
    (PoolState.init β concurrency items.length) s

/-- The pool call has finished: every runner has returned (so `Promise.all`
resolves). -/
def PoolState.terminal {β : Type} (s : PoolState β) : Prop :=
  ∀ r ∈ s.runners, r = RunnerState.done

/-- Inductive invariant of the pool machine: the cursor never exceeds the
item count, claimed indices are distributed injectively over the running
runners, every stored result is the worker's value for its own index, every
claimed-but-unstored index has exactly one runner working on it, indices at
or beyond the cursor are untouched, the instrumentation counts one worker
start per claimed index and none elsewhere, and a runner only returns after
the cursor has exhausted the items. -/
structure PoolInv {α β : Type} (items : List α) (worker : α → β)
    (concurrency : ℕ) (s : PoolState β) : Prop where
  runners_len : s.runners.length = min concurrency items.length
  results_len : s.results.length = items.length
  invocations_len : s.invocations.length = items.length
  next_le : s.nextIndex ≤ items.length
  running_lt : ∀ (j i : ℕ), s.runners[j]? = some (RunnerState.running i) →
    i < s.nextIndex
  running_inj : ∀ (j k i : ℕ), s.runners[j]? = some (RunnerState.running i) →
    s.runners[k]? = some (RunnerState.running i) → j = k
  running_res : ∀ (j i : ℕ), s.runners[j]? = some (RunnerState.running i) →
    s.results[i]? = some none
  results_val : ∀ (i : ℕ) (b : β), s.results[i]? = some (some b) →
    ∃ a : α, items[i]? = some a ∧ b = worker a
  covered : ∀ (i : ℕ), i < s.nextIndex → s.results[i]? = some none →
    ∃ j : ℕ, s.runners[j]? = some (RunnerState.running i)
  unclaimed : ∀ (i : ℕ), s.nextIndex ≤ i → i < items.length →
    s.results[i]? = some none
  invocations_val : ∀ (i : ℕ), i < items.length →
    s.invocations[i]? = some (if i < s.nextIndex then 1 else 0)
  done_next : ∀ (j : ℕ), s.runners[j]? = some RunnerState.done →
    items.length ≤ s.nextIndex

/-! ### Concrete fixtures used by the claim evaluations -/

/-- A recent feed item with a description (publish timestamp `1`, after the
cutoff `0` used by `demoCutoff`). -/
def demoItem : FeedItem :=
  ⟨"AI in iOS", "https://example.com/post", some "AI", some (some 1)⟩

/-- A one-item feed. -/
def demoFeed : ParsedFeed :=
  ⟨some "Example", none, [demoItem]⟩

/-- A fetch dependency that always succeeds with `demoFeed`. -/
def demoFetch : String → FetchFeedOptions → Except JsError ParsedFeed :=
  fun _ _ => .ok demoFeed

/-- A not-relevant verdict. -/
def demoVerdict : AnalysisResult :=
  ⟨false, none, none, none, "ok"⟩

/-- A classifier that always answers `demoVerdict`. -/
def demoClassify : String → ClassifyOptions → Except JsError AnalysisResult :=
  fun _ _ => .ok demoVerdict

/-- A constant cutoff primitive: every computed cutoff timestamp is `0`. -/
def demoCutoff : ℤ → ℤ → ℤ :=
  fun _ _ => 0

end BlogAnalyzer

namespace BlogAnalyzer

theorem daysInMonth_pos (y : ℤ) (m : ℕ) : 1 ≤ daysInMonth y m := by
  unfold daysInMonth
  split
  any_goals norm_num
  split <;> norm_num

theorem nextDay_isValid {dt : CivilDate} (h : dt.isValid) :
    (nextDay dt).isValid := by
  obtain ⟨hm, hd1, hd2⟩ := h
  unfold nextDay CivilDate.isValid
  split
  · dsimp only
    omega
  · split
    · dsimp only
      exact ⟨by omega, le_refl 1, daysInMonth_pos _ _⟩
    · dsimp only
      exact ⟨by norm_num, le_refl 1, daysInMonth_pos _ _⟩

theorem addDays_isValid {dt : CivilDate} (h : dt.isValid) (n : ℕ) :
    (addDays dt n).isValid := by
  induction n generalizing dt with
  | zero => exact h
  | succ k ih => exact ih (nextDay_isValid h)

theorem subtractMonths_isValid (dt : CivilDate) (months : ℤ) :
    (subtractMonths dt months).isValid := by
  unfold subtractMonths
  refine addDays_isValid ⟨?_, le_refl 1, daysInMonth_pos _ _⟩ _
  dsimp only
  have h12 : (0 : ℤ) < 12 := by norm_num
  have hlt := Int.emod_lt_of_pos (dt.year * 12 + (dt.month : ℤ) - max 0 months) h12
  have hnn := Int.emod_nonneg (dt.year * 12 + (dt.month : ℤ) - max 0 months) (by norm_num : (12 : ℤ) ≠ 0)
  omega

theorem runFeedWorker_shape (deps : ResolvedDeps) (cutoffOf : ℤ → ℤ → ℤ)
    (clockVal months : ℤ) (fetchOptions : FetchFeedOptions) (feedUrl : String) :
    ((runFeedWorker deps cutoffOf clockVal months fetchOptions feedUrl).1.status
        = .rejected →
      (runFeedWorker deps cutoffOf clockVal months fetchOptions feedUrl).1.error.isSome
        ∧ (runFeedWorker deps cutoffOf clockVal months fetchOptions feedUrl).1.relevantPosts
          = none) ∧
    ((runFeedWorker deps cutoffOf clockVal months fetchOptions feedUrl).1.status
        = .fulfilled →
      (runFeedWorker deps cutoffOf clockVal months fetchOptions feedUrl).1.feed.isSome) := by
  unfold runFeedWorker
  split
  · simp
  · split
    · simp
    · split
      · simp
      · simp

theorem runFeedWorker_fetches (deps : ResolvedDeps) (cutoffOf : ℤ → ℤ → ℤ)
    (clockVal months : ℤ) (fetchOptions : FetchFeedOptions) (feedUrl : String) :
    (runFeedWorker deps cutoffOf clockVal months fetchOptions feedUrl).2.fetches
      = [(feedUrl, fetchOptions)] := by
  unfold runFeedWorker
  split
  · rfl
  · split
    · rfl
    · split
      · rfl
      · rfl

theorem analyzeFeedItems_log_options
    (classify : String → ClassifyOptions → Except JsError AnalysisResult)
    (cutoffDate : ℤ) (items : List FeedItem) (n : ℕ) (posts : List RelevantPost)
    (log0 : List (String × ClassifyOptions))
    (h0 : ∀ entry ∈ log0, entry.2 = (⟨true, none⟩ : ClassifyOptions)) :
    ∀ entry ∈ (analyzeFeedItems classify cutoffDate items n posts log0).1,
      entry.2 = (⟨true, none⟩ : ClassifyOptions) := by
  induction items generalizing n posts log0 with
  | nil =>
    simpa [analyzeFeedItems] using h0
  | cons item rest ih =>
    unfold analyzeFeedItems
    split
    · split
      · exact ih _ _ _ h0
      · split
        · exact ih _ _ _ h0
        · split
          · intro entry hmem
            rcases List.mem_append.mp hmem with hl | hr
            · exact h0 entry hl
            · simpa using List.mem_singleton.mp hr ▸ rfl
          · refine ih _ _ _ ?_
            intro entry hmem
            rcases List.mem_append.mp hmem with hl | hr
            · exact h0 entry hl
            · simpa using List.mem_singleton.mp hr ▸ rfl
    · exact ih _ _ _ h0

theorem runFeedWorker_classification_options (deps : ResolvedDeps)
    (cutoffOf : ℤ → ℤ → ℤ) (clockVal months : ℤ)
    (fetchOptions : FetchFeedOptions) (feedUrl : String)
    (entry : String × ClassifyOptions)
    (h : entry ∈ (runFeedWorker deps cutoffOf clockVal months fetchOptions
      feedUrl).2.classifications) :
    entry.2 = (⟨true, none⟩ : ClassifyOptions) := by
  unfold runFeedWorker at h
  rcases hfetch : deps.fetchFeed feedUrl fetchOptions with e | feed
  · rw [hfetch] at h
    simp at h
  · rw [hfetch] at h
    dsimp only at h
    by_cases hempty : feed.items.isEmpty
    · rw [if_pos hempty] at h
      simp at h
    · rw [if_neg hempty] at h
      rcases hres : analyzeFeedItems deps.analysisClient (cutoffOf clockVal months)
          feed.items 0 [] [] with ⟨clog, res⟩
      rw [hres] at h
      have hmem : entry ∈ clog := by
        cases res with
        | error e2 => simpa using h
        | ok v =>
          rcases v with ⟨c, p⟩
          simpa using h
      refine analyzeFeedItems_log_options deps.analysisClient (cutoffOf clockVal months)
        feed.items 0 [] [] (by intro e2 he; cases he) entry ?_
      rw [hres]
      exact hmem

theorem analyzeFeedItems_default_error (cutoffDate : ℤ) (items : List FeedItem)
    (n : ℕ) (posts : List RelevantPost) (log0 log : List (String × ClassifyOptions))
    (e : JsError)
    (h : analyzeFeedItems defaultAnalysisClient cutoffDate items n posts log0
      = (log, .error e)) :
    e = ⟨"analysisClient dependency is required"⟩ := by
  induction items generalizing n posts log0 with
  | nil =>
    simp [analyzeFeedItems] at h
  | cons item rest ih =>
    unfold analyzeFeedItems at h
    split at h
    · split at h
      · exact ih _ _ _ h
      · split at h
        · exact ih _ _ _ h
        · simp only [defaultAnalysisClient] at h
          have h2 := congrArg Prod.snd h
          simp only at h2
          exact ((Except.error.injEq _ _).mp h2).symm
    · exact ih _ _ _ h

theorem analyzeFeeds_ok_cases
    (defaultFetchFeed : String → FetchFeedOptions → Except JsError ParsedFeed)
    (cutoffOf : ℤ → ℤ → ℤ) (clockVal : ℤ) (feedUrls : List String)
    (options : AnalyzeFeedsOptions) (results : List FeedAnalysisResult)
    (log : RunLog)
    (h : analyzeFeeds defaultFetchFeed cutoffOf clockVal feedUrls options
      = (.ok results, log)) :
    (feedUrls = [] ∧ results = [] ∧ log = emptyLog) ∨
    ∃ months, normalizeMonths options.months = .ok months ∧
      results = feedUrls.map (fun u =>
        (runFeedWorker (resolvedDeps defaultFetchFeed options) cutoffOf clockVal
          months (options.fetchOptions.getD ⟨none, none⟩) u).1) ∧
      log.fetches = (feedUrls.map (fun u =>
        (runFeedWorker (resolvedDeps defaultFetchFeed options) cutoffOf clockVal
          months (options.fetchOptions.getD ⟨none, none⟩) u).2.fetches)).flatten ∧
      log.classifications = (feedUrls.map (fun u =>
        (runFeedWorker (resolvedDeps defaultFetchFeed options) cutoffOf clockVal
          months (options.fetchOptions.getD ⟨none, none⟩) u).2.classifications)).flatten := by
  unfold analyzeFeeds at h
  dsimp only at h
  rcases Classical.em (isIntegral (options.parallel.getD 3)
      ∧ 0 < options.parallel.getD 3) with hp | hp
  · rw [if_neg (not_not_intro hp)] at h
    rcases hm : normalizeMonths options.months with e | months
    · rw [hm] at h
      simp at h
    · rw [hm] at h
      dsimp only at h
      by_cases hlen : feedUrls.length = 0
      · rw [if_pos hlen] at h
        have h1 := congrArg Prod.fst h
        have h2 := congrArg Prod.snd h
        simp only at h1 h2
        left
        exact ⟨List.length_eq_zero.mp hlen,
          ((Except.ok.injEq _ _).mp h1).symm, h2.symm⟩
      · rw [if_neg hlen] at h
        rcases hsig : signalThrows options.signal with _ | e2
        · rw [hsig] at h
          dsimp only at h
          have h1 := congrArg Prod.fst h
          have h2 := congrArg Prod.snd h
          simp only at h1 h2
          right
          refine ⟨months, rfl, ?_, ?_, ?_⟩
          · have := ((Except.ok.injEq _ _).mp h1).symm
            rw [this]
            simp only [List.map_map]
            rfl
          · have := congrArg RunLog.fetches h2.symm
            rw [this]
            simp only [List.map_map]
            rfl
          · have := congrArg RunLog.classifications h2.symm
            rw [this]
            simp only [List.map_map]
            rfl
        · rw [hsig] at h
          simp at h
  · rw [if_pos hp] at h
    simp at h

theorem flatten_singletons_length {α β : Type} (l : List α) (f : α → β) :
    (l.map fun a => [f a]).flatten.length = l.length := by
  induction l with
  | nil => rfl
  | cons a t ih => simpa using ih

theorem runFeedWorker_default_client_error (deps : ResolvedDeps)
    (cutoffOf : ℤ → ℤ → ℤ) (clockVal months : ℤ)
    (fetchOptions : FetchFeedOptions) (feedUrl : String)
    (hc : deps.analysisClient = defaultAnalysisClient)
    (hst : (runFeedWorker deps cutoffOf clockVal months fetchOptions feedUrl).1.status
      = .rejected)
    (hfeed : (runFeedWorker deps cutoffOf clockVal months fetchOptions feedUrl).1.feed.isSome) :
    (runFeedWorker deps cutoffOf clockVal months fetchOptions feedUrl).1.error
      = some ⟨"analysisClient dependency is required"⟩ := by
  unfold runFeedWorker at hst hfeed ⊢
  dsimp only at hst hfeed ⊢
  rcases hfetch : deps.fetchFeed feedUrl fetchOptions with e | feed
  all_goals rw [hfetch] at hst hfeed
  all_goals dsimp only at hst hfeed ⊢
  · simp at hfeed
  · by_cases hempty : feed.items.isEmpty
    · rw [if_pos hempty] at hst
      simp at hst
    · rw [if_neg hempty] at hst ⊢
      rcases hres : analyzeFeedItems deps.analysisClient (cutoffOf clockVal months)
          feed.items 0 [] [] with ⟨clog, res⟩
      rw [hres] at hst
      cases res with
      | error e2 =>
        have he2 : e2 = ⟨"analysisClient dependency is required"⟩ :=
          analyzeFeedItems_default_error (cutoffOf clockVal months) feed.items 0 [] []
            clog e2 (by rw [← hc]; exact hres)
        simp [he2]
      | ok v =>
        rcases v with ⟨c, p⟩
        simp at hst

theorem analyzeFeeds_classification_options
    (defaultFetchFeed : String → FetchFeedOptions → Except JsError ParsedFeed)
    (cutoffOf : ℤ → ℤ → ℤ) (clockVal : ℤ) (feedUrls : List String)
    (options : AnalyzeFeedsOptions) (entry : String × ClassifyOptions)
    (h : entry ∈ (analyzeFeeds defaultFetchFeed cutoffOf clockVal feedUrls
      options).2.classifications) :
    entry.2 = (⟨true, none⟩ : ClassifyOptions) := by
  unfold analyzeFeeds at h
  dsimp only at h
  split at h
  · simp [emptyLog] at h
  · split at h
    · simp [emptyLog] at h
    · rename_i months hmonths
      split at h
      · simp [emptyLog] at h
      · split at h
        · simp [emptyLog] at h
        · rcases (show ∃ u, u ∈ feedUrls ∧ entry ∈ (runFeedWorker
              (resolvedDeps defaultFetchFeed options) cutoffOf clockVal months
              (options.fetchOptions.getD ⟨none, none⟩) u).2.classifications by
            simpa using h) with ⟨u, -, hentry⟩
          exact runFeedWorker_classification_options _ cutoffOf clockVal months _ u
            entry hentry

theorem emitProgress_length (total : ℕ) (l : List FeedAnalysisResult) (c : ℕ) :
    (emitProgress total l c).length = l.length := by
  induction l generalizing c with
  | nil => rfl
  | cons r t ih => simp only [emitProgress, List.length_cons, ih (c + 1)]

theorem emitProgress_completed (total : ℕ) (l : List FeedAnalysisResult) (c : ℕ) :
    (emitProgress total l c).map ProgressUpdate.completed
      = List.range' (c + 1) l.length := by
  induction l generalizing c with
  | nil => rfl
  | cons r t ih =>
    simp only [emitProgress, List.map_cons, ih (c + 1), List.length_cons]
    rfl

theorem analyzeFeeds_ok_length
    (defaultFetchFeed : String → FetchFeedOptions → Except JsError ParsedFeed)
    (cutoffOf : ℤ → ℤ → ℤ) (clockVal : ℤ) (feedUrls : List String)
    (options : AnalyzeFeedsOptions) (results : List FeedAnalysisResult)
    (log : RunLog)
    (h : analyzeFeeds defaultFetchFeed cutoffOf clockVal feedUrls options
      = (.ok results, log)) :
    results.length = feedUrls.length := by
  rcases analyzeFeeds_ok_cases defaultFetchFeed cutoffOf clockVal feedUrls options
      results log h with ⟨hfe, hres, -⟩ | ⟨m, -, hres, -, -⟩
  · rw [hres, hfe]
    rfl
  · rw [hres, List.length_map]

theorem getElem?_some_lt {α : Type} {l : List α} {i : ℕ} {a : α}
    (h : l[i]? = some a) : i < l.length := by
  by_contra hle
  rw [List.getElem?_eq_none (le_of_not_lt hle)] at h
  cases h

theorem poolInv_init {α β : Type} (items : List α) (worker : α → β)
    (concurrency : ℕ) :
    PoolInv items worker concurrency (PoolState.init β concurrency items.length) := by
  refine ⟨?_, ?_, ?_, ?_, ?_, ?_, ?_, ?_, ?_, ?_, ?_, ?_⟩
  · simp [PoolState.init]
  · simp [PoolState.init]
  · simp [PoolState.init]
  · simp [PoolState.init]
  · intro j i hk
    simp [PoolState.init, List.getElem?_replicate] at hk
  · intro j k i hj hk
    simp [PoolState.init, List.getElem?_replicate] at hj
  · intro j i hj
    simp [PoolState.init, List.getElem?_replicate] at hj
  · intro i b hres
    simp [PoolState.init, List.getElem?_replicate] at hres
  · intro i hi
    simp [PoolState.init] at hi
  · intro i h1 h2
    simp [PoolState.init, List.getElem?_replicate, h2]
  · intro i hi
    simp [PoolState.init, List.getElem?_replicate, hi]
  · intro j hj
    simp [PoolState.init, List.getElem?_replicate] at hj

theorem poolInv_step {α β : Type} {items : List α} {worker : α → β}
    {concurrency : ℕ} {s t : PoolState β}
    (inv : PoolInv items worker concurrency s)
    (hstep : PoolStep items worker s t) :
    PoolInv items worker concurrency t := by
  cases hstep with
  | claim j hj hlt =>
    have hjlt : j < s.runners.length := getElem?_some_lt hj
    refine ⟨?_, ?_, ?_, ?_, ?_, ?_, ?_, ?_, ?_, ?_, ?_, ?_⟩
    all_goals dsimp only
    · simp [List.length_set, inv.runners_len]
    · exact inv.results_len
    · simp [List.length_set, inv.invocations_len]
    · omega
    · intro k i hk
      by_cases hkj : k = j
      · subst hkj
        rw [List.getElem?_set_eq_of_lt _ hjlt] at hk
        injection hk with hk2
        injection hk2 with hk3
        omega
      · rw [List.getElem?_set_ne (Ne.symm hkj)] at hk
        exact Nat.lt_succ_of_lt (inv.running_lt k i hk)
    · intro k k' i hk hk'
      by_cases hkj : k = j <;> by_cases hk'j : k' = j
      · rw [hkj, hk'j]
      · subst hkj
        rw [List.getElem?_set_eq_of_lt _ hjlt] at hk
        rw [List.getElem?_set_ne (Ne.symm hk'j)] at hk'
        injection hk with hk2
        injection hk2 with hk3
        have := inv.running_lt k' i hk'
        omega
      · subst hk'j
        rw [List.getElem?_set_eq_of_lt _ hjlt] at hk'
        rw [List.getElem?_set_ne (Ne.symm hkj)] at hk
        injection hk' with hk2
        injection hk2 with hk3
        have := inv.running_lt k i hk
        omega
      · rw [List.getElem?_set_ne (Ne.symm hkj)] at hk
        rw [List.getElem?_set_ne (Ne.symm hk'j)] at hk'
        exact inv.running_inj k k' i hk hk'
    · intro k i hk
      by_cases hkj : k = j
      · subst hkj
        rw [List.getElem?_set_eq_of_lt _ hjlt] at hk
        injection hk with hk2
        injection hk2 with hk3
        rw [← hk3]
        exact inv.unclaimed s.nextIndex (le_refl _) hlt
      · rw [List.getElem?_set_ne (Ne.symm hkj)] at hk
        exact inv.running_res k i hk
    · exact inv.results_val
    · intro i hi hres
      by_cases hin : i = s.nextIndex
      · subst hin
        exact ⟨j, by rw [List.getElem?_set_eq_of_lt _ hjlt]⟩
      · have hi' : i < s.nextIndex := by omega
        rcases inv.covered i hi' hres with ⟨k, hk⟩
        have hkj : k ≠ j := by
          intro h
          subst h
          rw [hj] at hk
          simp at hk
        exact ⟨k, by rw [List.getElem?_set_ne (Ne.symm hkj)]; exact hk⟩
    · intro i h1 h2
      exact inv.unclaimed i (by omega) h2
    · intro i hi
      by_cases hin : i = s.nextIndex
      · subst hin
        have hold := inv.invocations_val s.nextIndex hi
        have hlen : s.nextIndex < s.invocations.length := by
          rw [inv.invocations_len]
          exact hlt
        rw [List.getElem?_set_eq_of_lt _ hlen]
        have hzero : s.invocations.getD s.nextIndex 0 = 0 := by
          rw [List.getD_eq_getElem?_getD, hold]
          simp
        rw [hzero]
        simp
      · rw [List.getElem?_set_ne (Ne.symm hin), inv.invocations_val i hi]
        congr 1
        split_ifs <;> omega
    · intro k hk
      by_cases hkj : k = j
      · subst hkj
        rw [List.getElem?_set_eq_of_lt _ hjlt] at hk
        simp at hk
      · rw [List.getElem?_set_ne (Ne.symm hkj)] at hk
        exact le_trans (inv.done_next k hk) (Nat.le_succ _)
  | exhaust j hj hge =>
    have hjlt : j < s.runners.length := getElem?_some_lt hj
    refine ⟨?_, ?_, ?_, ?_, ?_, ?_, ?_, ?_, ?_, ?_, ?_, ?_⟩
    all_goals dsimp only
    · simp [List.length_set, inv.runners_len]
    · exact inv.results_len
    · exact inv.invocations_len
    · exact inv.next_le
    · intro k i hk
      by_cases hkj : k = j
      · subst hkj
        rw [List.getElem?_set_eq_of_lt _ hjlt] at hk
        simp at hk
      · rw [List.getElem?_set_ne (Ne.symm hkj)] at hk
        exact inv.running_lt k i hk
    · intro k k' i hk hk'
      by_cases hkj : k = j
      · subst hkj
        rw [List.getElem?_set_eq_of_lt _ hjlt] at hk
        simp at hk
      · by_cases hk'j : k' = j
        · subst hk'j
          rw [List.getElem?_set_eq_of_lt _ hjlt] at hk'
          simp at hk'
        · rw [List.getElem?_set_ne (Ne.symm hkj)] at hk
          rw [List.getElem?_set_ne (Ne.symm hk'j)] at hk'
          exact inv.running_inj k k' i hk hk'
    · intro k i hk
      by_cases hkj : k = j
      · subst hkj
        rw [List.getElem?_set_eq_of_lt _ hjlt] at hk
        simp at hk
      · rw [List.getElem?_set_ne (Ne.symm hkj)] at hk
        exact inv.running_res k i hk
    · exact inv.results_val
    · intro i hi hres
      rcases inv.covered i hi hres with ⟨k, hk⟩
      have hkj : k ≠ j := by
        intro h
        subst h
        rw [hj] at hk
        simp at hk
      exact ⟨k, by rw [List.getElem?_set_ne (Ne.symm hkj)]; exact hk⟩
    · exact inv.unclaimed
    · exact inv.invocations_val
    · intro k hk
      by_cases hkj : k = j
      · exact hge
      · rw [List.getElem?_set_ne (Ne.symm hkj)] at hk
        exact inv.done_next k hk
  | complete j i a hj ha =>
    have hjlt : j < s.runners.length := getElem?_some_lt hj
    have hires : s.results[i]? = some none := inv.running_res j i hj
    have hilt : i < s.results.length := getElem?_some_lt hires
    refine ⟨?_, ?_, ?_, ?_, ?_, ?_, ?_, ?_, ?_, ?_, ?_, ?_⟩
    all_goals dsimp only
    · simp [List.length_set, inv.runners_len]
    · simp [List.length_set, inv.results_len]
    · exact inv.invocations_len
    · exact inv.next_le
    · intro k i' hk
      by_cases hkj : k = j
      · subst hkj
        rw [List.getElem?_set_eq_of_lt _ hjlt] at hk
        simp at hk
      · rw [List.getElem?_set_ne (Ne.symm hkj)] at hk
        exact inv.running_lt k i' hk
    · intro k k' i' hk hk'
      by_cases hkj : k = j
      · subst hkj
        rw [List.getElem?_set_eq_of_lt _ hjlt] at hk
        simp at hk
      · by_cases hk'j : k' = j
        · subst hk'j
          rw [List.getElem?_set_eq_of_lt _ hjlt] at hk'
          simp at hk'
        · rw [List.getElem?_set_ne (Ne.symm hkj)] at hk
          rw [List.getElem?_set_ne (Ne.symm hk'j)] at hk'
          exact inv.running_inj k k' i' hk hk'
    · intro k i' hk
      by_cases hkj : k = j
      · subst hkj
        rw [List.getElem?_set_eq_of_lt _ hjlt] at hk
        simp at hk
      · rw [List.getElem?_set_ne (Ne.symm hkj)] at hk
        have hii' : i' ≠ i := by
          intro h
          subst h
          exact hkj (inv.running_inj k j i' hk hj)
        rw [List.getElem?_set_ne (Ne.symm hii')]
        exact inv.running_res k i' hk
    · intro i' b hres
      by_cases hii' : i' = i
      · subst hii'
        rw [List.getElem?_set_eq_of_lt _ hilt] at hres
        injection hres with h2
        injection h2 with h3
        exact ⟨a, ha, h3.symm⟩
      · rw [List.getElem?_set_ne (Ne.symm hii')] at hres
        exact inv.results_val i' b hres
    · intro i' hi' hres
      by_cases hii' : i' = i
      · subst hii'
        rw [List.getElem?_set_eq_of_lt _ hilt] at hres
        simp at hres
      · rw [List.getElem?_set_ne (Ne.symm hii')] at hres
        rcases inv.covered i' hi' hres with ⟨k, hk⟩
        have hkj : k ≠ j := by
          intro h
          subst h
          rw [hj] at hk
          injection hk with h2
          injection h2 with h3
          exact hii' h3.symm
        exact ⟨k, by rw [List.getElem?_set_ne (Ne.symm hkj)]; exact hk⟩
    · intro i' h1 h2
      have hii' : i' ≠ i := by
        have := inv.running_lt j i hj
        omega
      rw [List.getElem?_set_ne (Ne.symm hii')]
      exact inv.unclaimed i' h1 h2
    · exact inv.invocations_val
    · intro k hk
      by_cases hkj : k = j
      · subst hkj
        rw [List.getElem?_set_eq_of_lt _ hjlt] at hk
        simp at hk
      · rw [List.getElem?_set_ne (Ne.symm hkj)] at hk
        exact inv.done_next k hk

theorem poolInv_reachable {α β : Type} (items : List α) (worker : α → β)
    (concurrency : ℕ) (s : PoolState β)
    (h : PoolReachable items worker concurrency s) :
    PoolInv items worker concurrency s := by
  unfold PoolReachable at h
  induction h with
  | refl => exact poolInv_init items worker concurrency
  | tail hsteps hstep ih => exact poolInv_step ih hstep

/-- C10: for the empty input list, `asyncPool` resolves to the empty result
array even when the supplied cancellation signal is already aborted, because
the empty-input early return (line 18 of `src/utils.ts`) precedes the abort
check (line 22). -/
theorem c10_empty_pool_aborted_ok {α β : Type} (worker : α → β)
    (concurrency : ℚ) (reason : AbortReason)
    (hint : isIntegral concurrency) (hpos : 0 < concurrency) :
    asyncPoolResult ([] : List α) worker concurrency
      (some ⟨true, reason⟩) = .ok [] := by
  unfold asyncPoolResult
  rw [if_neg (by simp [hint, hpos])]
  simp

/-- Witness for C10 at a concrete input: identity worker, concurrency 1,
aborted signal with an `undefined` reason. -/
theorem c10_empty_pool_aborted_ok_witness :
    asyncPoolResult ([] : List Nat) id 1 (some ⟨true, .undef⟩) = .ok [] :=
  c10_empty_pool_aborted_ok id 1 .undef (by decide) (by norm_num)

/-- C8 counterexample: subtracting 1 month from March 31, 2025 yields
March 3, 2025 (`setMonth` keeps the day-of-month 31, and February 31
normalises forward into March), not the last valid day of February
(February 28, 2025) as the claim states. -/
theorem c8_march31_counterexample :
    subtractMonths ⟨2025, 2, 31⟩ 1 = ⟨2025, 2, 3⟩ ∧
      subtractMonths ⟨2025, 2, 31⟩ 1 ≠ ⟨2025, 1, 28⟩ := by
  constructor
  · show addDays ⟨2025, 1, 1⟩ 30 = ⟨2025, 2, 3⟩
    decide
  · show addDays ⟨2025, 1, 1⟩ 30 ≠ ⟨2025, 1, 28⟩
    decide

/-- C8 (amended): the recency cutoff uses calendar-month arithmetic with the
host library's day-overflow normalisation: for every reference date and
positive month window the result is a valid date, and in particular
subtracting 1 month from March 31, 2025 lands on March 3, 2025 (the overflow
day February 31 rolls forward), not on the last day of February and not on an
invalid date. -/
theorem c8_subtractMonths_valid (dt : CivilDate) (months : ℤ)
    (hpos : 0 < months) :
    (subtractMonths dt months).isValid ∧
      subtractMonths ⟨2025, 2, 31⟩ 1 = ⟨2025, 2, 3⟩ := by
  refine ⟨subtractMonths_isValid dt months, ?_⟩
  show addDays ⟨2025, 1, 1⟩ 30 = ⟨2025, 2, 3⟩
  decide

/-- Witness for C8 at the concrete input March 31, 2025 with a 1-month
window. -/
theorem c8_subtractMonths_valid_witness :
    (0 : ℤ) < 1 ∧
      ((subtractMonths ⟨2025, 2, 31⟩ 1).isValid ∧
        subtractMonths ⟨2025, 2, 31⟩ 1 = ⟨2025, 2, 3⟩) :=
  ⟨by norm_num, c8_subtractMonths_valid ⟨2025, 2, 31⟩ 1 (by norm_num)⟩

/-- C7 counterexample: with the graceful-degradation flag set, a parse
failure of the Ollama response (`OllamaParseError`) is re-raised rather than
converted into a verdict: `isGracefulFailure` rejects it, so the `catch`
rethrows.  This falsifies "every failure of the underlying operation (of any
kind)". -/
theorem c7_parse_error_counterexample :
    analyzeCatch true
        (.error (.parseError "Unable to locate JSON response in Ollama output"))
      = .error (.parseError "Unable to locate JSON response in Ollama output") :=
  rfl

/-- C7 (amended): with the graceful-degradation flag set, failures that
`isGracefulFailure` accepts — unavailable errors, timeout errors, and request
errors with HTTP status 500+ or 429 — are converted into a low-confidence
non-relevant verdict whose reason carries the failure message; all other
failures (parse errors, configuration errors, request errors with any other
status) are re-raised. -/
theorem c7_graceful_degradation_cases :
    (∀ m a, analyzeCatch true (.error (.unavailableError m a))
        = .ok ⟨false, some 0, some m, none, ""⟩) ∧
    (∀ m, analyzeCatch true (.error (.timeoutError m))
        = .ok ⟨false, some 0, some m, none, ""⟩) ∧
    (∀ m s, (500 ≤ s ∨ s = 429) → analyzeCatch true (.error (.requestError m s))
        = .ok ⟨false, some 0, some m, none, ""⟩) ∧
    (∀ m, analyzeCatch true (.error (.parseError m))
        = .error (.parseError m)) ∧
    (∀ m, analyzeCatch true (.error (.configurationError m))
        = .error (.configurationError m)) ∧
    (∀ m s, ¬ (500 ≤ s ∨ s = 429) → analyzeCatch true (.error (.requestError m s))
        = .error (.requestError m s)) := by
  refine ⟨fun m a => rfl, fun m => rfl, fun m s hs => ?_, fun m => rfl, fun m => rfl,
    fun m s hs => ?_⟩
  · have : (500 ≤ s || s == 429) = true := by
      rcases hs with h | h
      · simp [h]
      · simp [h]
    simp [analyzeCatch, isGracefulFailure, this, createFallbackAnalysis, OllamaError.message]
  · have : (500 ≤ s || s == 429) = false := by
      push_neg at hs
      simp [hs.1, hs.2, not_le.mpr hs.1]
    simp [analyzeCatch, isGracefulFailure, this]

/-- C2: contract of the `asyncPool` runner loop for every item list, worker
and positive integer concurrency limit, over every interleaving of runner
moves: at every reachable state at most `concurrency` workers are in flight
and no item has been started more than once, and when the pool terminates
(every runner has returned, so `Promise.all` resolves) the worker has been
executed exactly once per item and `results[i]` holds the worker's result
for `items[i]` — input order, regardless of completion order. -/
theorem c2_async_pool_contract {α β : Type} (items : List α) (worker : α → β)
    (concurrency : ℕ) (s : PoolState β)
    (hC : 0 < concurrency)
    (hreach : PoolReachable items worker concurrency s) :
    s.activeCount ≤ concurrency ∧
    (∀ i, s.invocations.getD i 0 ≤ 1) ∧
    (s.terminal →
      ∀ (i : ℕ) (a : α), items[i]? = some a →
        s.results[i]? = some (some (worker a)) ∧ s.invocations.getD i 0 = 1) := by
  have inv := poolInv_reachable items worker concurrency s hreach
  refine ⟨?_, ?_, ?_⟩
  · calc s.activeCount ≤ s.runners.length := List.countP_le_length _
      _ = min concurrency items.length := inv.runners_len
      _ ≤ concurrency := min_le_left _ _
  · intro i
    by_cases hi : i < items.length
    · rw [List.getD_eq_getElem?_getD, inv.invocations_val i hi]
      split <;> norm_num
    · rw [List.getD_eq_getElem?_getD,
        List.getElem?_eq_none (by rw [inv.invocations_len]; omega)]
      norm_num
  · intro hterm i a ha
    have hitot : i < items.length := getElem?_some_lt ha
    have hrpos : 0 < s.runners.length := by
      rw [inv.runners_len]
      omega
    have htot : items.length ≤ s.nextIndex := by
      have hr0 := List.getElem?_eq_getElem hrpos
      have hdone := hterm _ (List.getElem?_mem hr0)
      rw [hdone] at hr0
      exact inv.done_next 0 hr0
    have hi_lt : i < s.nextIndex := lt_of_lt_of_le hitot htot
    have hibound : i < s.results.length := by
      rw [inv.results_len]
      exact hitot
    rcases hres : s.results[i]? with _ | o
    · rw [List.getElem?_eq_getElem hibound] at hres
      cases hres
    · cases o with
      | none =>
        rcases inv.covered i hi_lt hres with ⟨j, hj⟩
        have := hterm _ (List.getElem?_mem hj)
        cases this
      | some b =>
        rcases inv.results_val i b hres with ⟨a2, ha2, hb⟩
        rw [ha] at ha2
        injection ha2 with ha3
        constructor
        · rw [hb, ← ha3]
        · rw [List.getD_eq_getElem?_getD, inv.invocations_val i hitot,
            if_pos hi_lt]
          rfl

/-- Witness for C2 at a concrete input: the one-item pool with concurrency 1,
at the terminal state reached by the run claim-complete-exhaust, has at most
one active worker, started the single item exactly once, and stored
`worker 42 = 43` at index 0. -/
theorem c2_async_pool_contract_witness :
    0 < 1 ∧
    ((⟨1, [RunnerState.done], [some 43], [1]⟩ : PoolState ℕ).activeCount ≤ 1 ∧
    (∀ i, ([1] : List ℕ).getD i 0 ≤ 1) ∧
    ((⟨1, [RunnerState.done], [some 43], [1]⟩ : PoolState ℕ).terminal →
      ∀ (i : ℕ) (a : ℕ), ([42] : List ℕ)[i]? = some a →
        ([some 43] : List (Option ℕ))[i]? = some (some ((fun x => x + 1) a)) ∧
          ([1] : List ℕ).getD i 0 = 1)) := by
  refine ⟨by norm_num, ?_⟩
  refine c2_async_pool_contract [42] (fun x => x + 1) 1 _ (by norm_num) ?_
  refine Relation.ReflTransGen.tail (Relation.ReflTransGen.tail
    (Relation.ReflTransGen.tail Relation.ReflTransGen.refl
      (PoolStep.claim (PoolState.init ℕ 1 1) 0 (by decide) (by decide)))
    (PoolStep.complete _ 0 0 42 (by decide) (by decide)))
    (PoolStep.exhaust _ 0 (by decide) (by decide))

/-- C1: evaluation of `analyzeFeeds` at the repository's own duplicate-URL
test input (`tests/analyzer.test.ts`, "caches fetched feeds to avoid
duplicate network work"): the input lists the same URL twice, and the code
invokes the fetch dependency twice — once per occurrence — because the
orchestrator in `src/analyzer.ts` has no URL-to-fetch cache (each worker
calls `dependencies.fetchFeed(feedUrl, ...)` directly, line 94).  The
repository's test and `ARCHITECTURE.md` both require exactly one fetch.
Two result entries are still produced, one per occurrence. -/
theorem c1_duplicate_url_fetched_twice :
    (analyzeFeeds demoFetch demoCutoff 0
        ["https://example.com/feed", "https://example.com/feed"]
        ⟨none, none, none, ⟨some demoFetch, some demoClassify⟩, none⟩).2.fetches
      = [("https://example.com/feed", ⟨none, none⟩),
         ("https://example.com/feed", ⟨none, none⟩)] ∧
    (analyzeFeeds demoFetch demoCutoff 0
        ["https://example.com/feed", "https://example.com/feed"]
        ⟨none, none, none, ⟨some demoFetch, some demoClassify⟩, none⟩).1
      = .ok [⟨"https://example.com/feed", .fulfilled, some demoFeed, none,
              some 0, some 1, none⟩,
             ⟨"https://example.com/feed", .fulfilled, some demoFeed, none,
              some 0, some 1, none⟩] :=
  ⟨rfl, rfl⟩

/-- C4: evaluation of `analyzeFeedItems` at the repository's own
false-positive test input (`tests/analyzer.test.ts`, "filters out AI false
positives lacking AI signals"): the classifier returns `relevant: true` with
reason "Great charts content" and no tags — no topic-signal markers — yet the
code appends the post to `relevantPosts` because `src/analyzer.ts` lines
176-183 push on `analysis.relevant` alone, with no false-positive guard.
The repository's test and its README guardrail description require the post
to be excluded. -/
theorem c4_false_positive_kept :
    analyzeFeedItems
        (fun _ _ => .ok ⟨true, none, some "Great charts content", none, "ok"⟩) 0
        [⟨"Visual debugging with Swift Charts", "https://example.com/charts",
          some "Using Swift Charts for debugging game data streams.",
          some (some 1)⟩] 0 [] []
      = ([("Using Swift Charts for debugging game data streams.", ⟨true, none⟩)],
         .ok (1, [⟨"Visual debugging with Swift Charts",
            "https://example.com/charts", some (some 1),
            ⟨true, none, some "Great charts content", none, "ok"⟩⟩])) :=
  rfl

/-- C5 counterexample: a run whose fetch succeeds (so `result.feed` is
assigned, `src/analyzer.ts` line 97) and whose classification then throws
produces a result with `status = "rejected"` and `feed` still present —
the claimed invariant "rejected implies feed absent" fails. -/
theorem c5_rejected_feed_present_counterexample :
    (analyzeFeeds demoFetch demoCutoff 0 ["u"]
        ⟨none, none, none,
          ⟨some demoFetch, some fun _ _ => .error ⟨"classify boom"⟩⟩, none⟩).1
      = .ok [⟨"u", .rejected, some demoFeed, some ⟨"classify boom"⟩,
              some 0, none, none⟩] :=
  rfl

/-- C5 (amended): for every `FeedAnalysisResult` returned by `analyzeFeeds`,
`status = "rejected"` implies `error` is set and `relevantPosts` is absent
(but `feed` may be present when the failure occurred after a successful
fetch, e.g. during classification), and `status = "fulfilled"` implies
`feed` is set. -/
theorem c5_result_shape
    (defaultFetchFeed : String → FetchFeedOptions → Except JsError ParsedFeed)
    (cutoffOf : ℤ → ℤ → ℤ) (clockVal : ℤ) (feedUrls : List String)
    (options : AnalyzeFeedsOptions) (results : List FeedAnalysisResult)
    (log : RunLog) (r : FeedAnalysisResult)
    (hrun : analyzeFeeds defaultFetchFeed cutoffOf clockVal feedUrls options
      = (.ok results, log))
    (hmem : r ∈ results) :
    (r.status = .rejected → r.error.isSome ∧ r.relevantPosts = none) ∧
    (r.status = .fulfilled → r.feed.isSome) := by
  rcases analyzeFeeds_ok_cases defaultFetchFeed cutoffOf clockVal feedUrls options
      results log hrun with ⟨-, hres, -⟩ | ⟨months, -, hres, -, -⟩
  · rw [hres] at hmem
    cases hmem
  · rw [hres] at hmem
    rcases List.mem_map.mp hmem with ⟨u, -, hu⟩
    rw [← hu]
    exact runFeedWorker_shape _ cutoffOf clockVal months _ u

/-- Witness for C5 at a concrete input: the run of the counterexample
scenario, whose only result is rejected with an error, no relevant posts,
and (visibly) a present feed. -/
theorem c5_result_shape_witness :
    ((⟨"u", .rejected, some demoFeed, some ⟨"classify boom"⟩, some 0, none,
        none⟩ : FeedAnalysisResult).status = .rejected →
      (⟨"u", .rejected, some demoFeed, some ⟨"classify boom"⟩, some 0, none,
        none⟩ : FeedAnalysisResult).error.isSome ∧
      (⟨"u", .rejected, some demoFeed, some ⟨"classify boom"⟩, some 0, none,
        none⟩ : FeedAnalysisResult).relevantPosts = none) ∧
    ((⟨"u", .rejected, some demoFeed, some ⟨"classify boom"⟩, some 0, none,
        none⟩ : FeedAnalysisResult).status = .fulfilled →
      (⟨"u", .rejected, some demoFeed, some ⟨"classify boom"⟩, some 0, none,
        none⟩ : FeedAnalysisResult).feed.isSome) :=
  c5_result_shape demoFetch demoCutoff 0 ["u"]
    ⟨none, none, none,
      ⟨some demoFetch, some fun _ _ => .error ⟨"classify boom"⟩⟩, none⟩
    _ _ _ rfl (List.mem_singleton.mpr rfl)

/-- C6 counterexample: with the classification dependency never overridden
(`dependencies.analysisClient` absent) but a fetch override in place, the
`analyzeFeeds` call does not fail before work starts: it resolves
successfully, the fetch dependency is invoked, and the default throwing
client is even called once for the eligible item — the feed is merely marked
rejected.  This falsifies the claim's "the entire call fails before any work
starts: no fetch and no classification call is ever made". -/
theorem c6_missing_classifier_counterexample :
    analyzeFeeds demoFetch demoCutoff 0 ["u"]
        ⟨none, none, none, ⟨some demoFetch, none⟩, none⟩
      = (.ok [⟨"u", .rejected, some demoFeed,
            some ⟨"analysisClient dependency is required"⟩, some 0, none, none⟩],
         ⟨[("u", ⟨none, none⟩)], [("AI", ⟨true, none⟩)]⟩) :=
  rfl

/-- C6 (amended): an invalid concurrency limit (non-integer or `<= 0`) or an
invalid month window makes `analyzeFeeds` fail before any work starts, with
no fetch and no classification call.  A classification dependency that was
never overridden does not abort the call up front: the run resolves, the
fetch dependency is invoked once per input URL, and any feed that is
rejected after a successful fetch carries the configuration error
"analysisClient dependency is required". -/
theorem c6_configuration_errors
    (defaultFetchFeed : String → FetchFeedOptions → Except JsError ParsedFeed)
    (cutoffOf : ℤ → ℤ → ℤ) (clockVal : ℤ) (feedUrls : List String)
    (options : AnalyzeFeedsOptions) :
    (¬ (isIntegral (options.parallel.getD 3) ∧ 0 < options.parallel.getD 3) →
      analyzeFeeds defaultFetchFeed cutoffOf clockVal feedUrls options
        = (.error ⟨"parallel must be a positive integer"⟩, emptyLog)) ∧
    (∀ v, options.months = some v → ¬ (isIntegral v ∧ 0 < v) →
      (isIntegral (options.parallel.getD 3) ∧ 0 < options.parallel.getD 3) →
      analyzeFeeds defaultFetchFeed cutoffOf clockVal feedUrls options
        = (.error ⟨"months must be a positive integer"⟩, emptyLog)) ∧
    (options.dependencies.analysisClient = none →
      ∀ results log,
        analyzeFeeds defaultFetchFeed cutoffOf clockVal feedUrls options
          = (.ok results, log) →
        log.fetches.length = feedUrls.length ∧
        ∀ r ∈ results, r.status = .rejected → r.feed.isSome →
          r.error = some ⟨"analysisClient dependency is required"⟩) := by
  refine ⟨?_, ?_, ?_⟩
  · intro hp
    unfold analyzeFeeds
    dsimp only
    rw [if_pos hp]
  · intro v hv hval hp
    unfold analyzeFeeds
    dsimp only
    rw [if_neg (not_not_intro hp), hv]
    unfold normalizeMonths
    dsimp only
    rw [if_neg hval]
  · intro hnone results log hrun
    rcases analyzeFeeds_ok_cases defaultFetchFeed cutoffOf clockVal feedUrls options
        results log hrun with ⟨hfe, hres, hlog⟩ | ⟨months, -, hres, hfetches, -⟩
    · constructor
      · rw [hlog, hfe]
        rfl
      · rw [hres]
        intro r hr
        cases hr
    · constructor
      · rw [hfetches]
        simp only [runFeedWorker_fetches]
        exact flatten_singletons_length feedUrls _
      · rw [hres]
        intro r hr hst hfeed
        rcases List.mem_map.mp hr with ⟨u, -, hu⟩
        rw [← hu] at hst hfeed ⊢
        refine runFeedWorker_default_client_error _ cutoffOf clockVal months _ u
          ?_ hst hfeed
        simp [resolvedDeps, hnone]

/-- Witness for C6 at concrete inputs: `parallel = 0` fails up front with no
work; `months = -1` fails up front with no work; and a run with the
classification dependency never overridden resolves with one fetch per URL
and the configuration error attached to the rejected feed. -/
theorem c6_configuration_errors_witness :
    (analyzeFeeds demoFetch demoCutoff 0 ["u"]
        ⟨some 0, none, none, ⟨some demoFetch, some demoClassify⟩, none⟩
      = (.error ⟨"parallel must be a positive integer"⟩, emptyLog)) ∧
    (analyzeFeeds demoFetch demoCutoff 0 ["u"]
        ⟨none, none, none, ⟨some demoFetch, some demoClassify⟩, some (-1)⟩
      = (.error ⟨"months must be a positive integer"⟩, emptyLog)) ∧
    ((analyzeFeeds demoFetch demoCutoff 0 ["u"]
        ⟨none, none, none, ⟨some demoFetch, none⟩, none⟩).2.fetches.length = 1 ∧
      ∀ r ∈ [(⟨"u", .rejected, some demoFeed,
          some ⟨"analysisClient dependency is required"⟩, some 0, none,
          none⟩ : FeedAnalysisResult)], r.status = .rejected → r.feed.isSome →
        r.error = some ⟨"analysisClient dependency is required"⟩) :=
  ⟨(c6_configuration_errors demoFetch demoCutoff 0 ["u"]
      ⟨some 0, none, none, ⟨some demoFetch, some demoClassify⟩, none⟩).1
      (by decide),
   (c6_configuration_errors demoFetch demoCutoff 0 ["u"]
      ⟨none, none, none, ⟨some demoFetch, some demoClassify⟩, some (-1)⟩).2.1
      (-1) rfl (by decide) (by decide),
   (c6_configuration_errors demoFetch demoCutoff 0 ["u"]
      ⟨none, none, none, ⟨some demoFetch, none⟩, none⟩).2.2 rfl
      [⟨"u", .rejected, some demoFeed,
        some ⟨"analysisClient dependency is required"⟩, some 0, none, none⟩]
      ⟨[("u", ⟨none, none⟩)], [("AI", ⟨true, none⟩)]⟩ rfl⟩

/-- C9 counterexample: a run carried out with a (non-aborted) cancellation
signal supplied still passes no signal into the classification call — the
options object built at `src/analyzer.ts` line 174 is
`gracefulDegradation: true` with no `signal` property, and the fetch options
interface (`FetchFeedOptions`) has no signal field at all.  This falsifies
"forwarded into every awaited network fetch and classification call". -/
theorem c9_signal_not_forwarded_counterexample :
    (analyzeFeeds demoFetch demoCutoff 0 ["u"]
        ⟨none, some ⟨false, .undef⟩, none,
          ⟨some demoFetch, some demoClassify⟩, none⟩).2.classifications
      = [("AI", ⟨true, none⟩)] :=
  rfl

/-- C9 (amended): the cancellation signal is checked before work is
dispatched — cancelling before any work starts makes `analyzeFeeds` fail
with the cancellation's reason, with no fetch and no classification call —
but the signal is not forwarded into the awaited fetch and classification
calls: every classification call is made with `gracefulDegradation: true`
and no signal, so an in-flight request does not observe cancellation. -/
theorem c9_cancellation_semantics :
    (∀ (defaultFetchFeed : String → FetchFeedOptions → Except JsError ParsedFeed)
        (cutoffOf : ℤ → ℤ → ℤ) (clockVal : ℤ) (feedUrls : List String)
        (options : AnalyzeFeedsOptions) (sig : Signal) (months : ℤ),
      options.signal = some sig → sig.aborted = true → feedUrls ≠ [] →
      isIntegral (options.parallel.getD 3) → 0 < options.parallel.getD 3 →
      normalizeMonths options.months = .ok months →
      analyzeFeeds defaultFetchFeed cutoffOf clockVal feedUrls options
        = (.error (toAbortError sig.reason), emptyLog)) ∧
    (∀ (defaultFetchFeed : String → FetchFeedOptions → Except JsError ParsedFeed)
        (cutoffOf : ℤ → ℤ → ℤ) (clockVal : ℤ) (feedUrls : List String)
        (options : AnalyzeFeedsOptions)
        (entry : String × ClassifyOptions),
      entry ∈ (analyzeFeeds defaultFetchFeed cutoffOf clockVal feedUrls
        options).2.classifications →
      entry.2 = (⟨true, none⟩ : ClassifyOptions)) := by
  constructor
  · intro defaultFetchFeed cutoffOf clockVal feedUrls options sig months hsig hab
      hne hpi hpp hm
    unfold analyzeFeeds
    dsimp only
    rw [if_neg (not_not_intro ⟨hpi, hpp⟩), hm]
    dsimp only
    rw [if_neg (fun hlen => hne (List.length_eq_zero.mp hlen)), hsig]
    simp only [signalThrows, hab, if_pos]
  · exact fun d c cl f o entry h =>
      analyzeFeeds_classification_options d c cl f o entry h

/-- Witness for C9 at concrete inputs: aborting with reason "stop" before a
one-feed run fails the call with that reason and an empty call log, and the
classification entry of the counterexample run carries the flag-only
options. -/
theorem c9_cancellation_semantics_witness :
    (analyzeFeeds demoFetch demoCutoff 0 ["u"]
        ⟨none, some ⟨true, .str "stop"⟩, none,
          ⟨some demoFetch, some demoClassify⟩, none⟩
      = (.error ⟨"stop"⟩, emptyLog)) ∧
    (("AI", (⟨true, none⟩ : ClassifyOptions)).2
      = (⟨true, none⟩ : ClassifyOptions)) :=
  ⟨c9_cancellation_semantics.1 demoFetch demoCutoff 0 ["u"]
      ⟨none, some ⟨true, .str "stop"⟩, none,
        ⟨some demoFetch, some demoClassify⟩, none⟩
      ⟨true, .str "stop"⟩ 3 rfl rfl (by decide) (by decide) (by decide) rfl,
   c9_cancellation_semantics.2 demoFetch demoCutoff 0 ["u"]
      ⟨none, some ⟨false, .undef⟩, none,
        ⟨some demoFetch, some demoClassify⟩, none⟩
      ("AI", ⟨true, none⟩) (by rw [c9_signal_not_forwarded_counterexample]; exact List.mem_singleton.mpr rfl)⟩

/-- C3: for every successful `analyzeFeeds` run and every completion order of
its per-feed results (any permutation of the result list), the progress
callback fires exactly `len(feedUrls)` times and the emitted `completed`
values are exactly `1, 2, ..., len(feedUrls)` with no gaps or repeats: the
shared counter is incremented and read atomically at each worker's own
completion. -/
theorem c3_progress_completed_sequence
    (defaultFetchFeed : String → FetchFeedOptions → Except JsError ParsedFeed)
    (cutoffOf : ℤ → ℤ → ℤ) (clockVal : ℤ) (feedUrls : List String)
    (options : AnalyzeFeedsOptions) (results : List FeedAnalysisResult)
    (log : RunLog) (order : List FeedAnalysisResult)
    (hrun : analyzeFeeds defaultFetchFeed cutoffOf clockVal feedUrls options
      = (.ok results, log))
    (hperm : order.Perm results) :
    (emitProgress feedUrls.length order 0).length = feedUrls.length ∧
    (emitProgress feedUrls.length order 0).map ProgressUpdate.completed
      = List.range' 1 feedUrls.length := by
  have hlen : order.length = feedUrls.length :=
    hperm.length_eq.trans (analyzeFeeds_ok_length defaultFetchFeed cutoffOf clockVal
      feedUrls options results log hrun)
  constructor
  · rw [emitProgress_length, hlen]
  · rw [emitProgress_completed, hlen]

/-- Witness for C3 at a concrete input: a two-feed run whose progress events
are emitted in reversed completion order still carries `completed` values
`[1, 2]`. -/
theorem c3_progress_completed_sequence_witness :
    (emitProgress (["a", "b"] : List String).length
        [⟨"b", .fulfilled, some demoFeed, none, some 0, some 1, none⟩,
         ⟨"a", .fulfilled, some demoFeed, none, some 0, some 1, none⟩] 0).length
      = (["a", "b"] : List String).length ∧
    (emitProgress (["a", "b"] : List String).length
        [⟨"b", .fulfilled, some demoFeed, none, some 0, some 1, none⟩,
         ⟨"a", .fulfilled, some demoFeed, none, some 0, some 1, none⟩] 0).map
        ProgressUpdate.completed
      = List.range' 1 (["a", "b"] : List String).length :=
  c3_progress_completed_sequence demoFetch demoCutoff 0 ["a", "b"]
    ⟨none, none, none, ⟨some demoFetch, some demoClassify⟩, none⟩
    [⟨"a", .fulfilled, some demoFeed, none, some 0, some 1, none⟩,
     ⟨"b", .fulfilled, some demoFeed, none, some 0, some 1, none⟩]
    ⟨[("a", ⟨none, none⟩), ("b", ⟨none, none⟩)],
      [("AI", ⟨true, none⟩), ("AI", ⟨true, none⟩)]⟩
    [⟨"b", .fulfilled, some demoFeed, none, some 0, some 1, none⟩,
     ⟨"a", .fulfilled, some demoFeed, none, some 0, some 1, none⟩]
    rfl (by decide)

/-- Witness for C7 at concrete inputs: a 503 request error degrades to the
fallback verdict carrying its message; a 404 request error is re-raised. -/
theorem c7_graceful_degradation_cases_witness :
    analyzeCatch true (.error (.requestError "Ollama generation failed: 503" 503))
        = .ok ⟨false, some 0, some "Ollama generation failed: 503", none, ""⟩ ∧
      analyzeCatch true (.error (.requestError "Ollama generation failed: 404" 404))
        = .error (.requestError "Ollama generation failed: 404" 404) :=
  ⟨c7_graceful_degradation_cases.2.2.1 "Ollama generation failed: 503" 503
      (Or.inl (by norm_num)),
    c7_graceful_degradation_cases.2.2.2.2.2 "Ollama generation failed: 404" 404
      (by norm_num)⟩

end BlogAnalyzer
